import Mathlib

/-!
Verification of the sampling / weighting / combination engine of
`easydl/common/dataloader.py` (thuml/easydl).

The Python code is shallowly embedded: lists stay lists, `numpy.float32`
weights become exact rationals (`ℚ`), the random primitives
(`random.shuffle`, `np.random.choice`) become explicit oracle parameters
whose contracts (shuffle returns a permutation; choice returns a drawn
element) appear as hypotheses, and fallible construction code becomes
`Except String`.
-/

set_option autoImplicit false

deriving instance DecidableEq for Except

universe u v

variable {α : Type u} {γ : Type u}

/-- State of a successfully constructed `BaseDataset` after `__init__` /
`_post_init`: the filtered `self.datas` and `self.labels`, the normalized
`self._weight`, the `self.uniform_weight_flag`, and the stored
`self.is_train` / `self.return_id` arguments.  Labels are modelled as
scalar integers (so `np.asarray(label).flatten()[0]` is the label itself). -/
structure DatasetState (α : Type u) where
  datas : List α
  labels : List Int
  weight : List ℚ
  uniform_weight_flag : Bool
  is_train : Bool
  return_id : Bool
deriving Repr, DecidableEq

/-- The `sample_weight` argument of `BaseDataset.__init__`: either a
function `(data, label) -> number` or an explicit weight array. -/
inductive SampleWeight (α : Type u) where
  | fn (f : α → Int → ℚ)
  | arr (w : List ℚ)

/-- The filter pass of `BaseDataset._post_init`:
`tmp = [[d, l] for (d, l) in zip(datas, labels) if not skip_pred(d, l, is_train)]`.
Like Python `zip`, `List.zip` truncates to the shorter sequence. -/
def pyFilter (datas : List α) (labels : List Int)
    (skip_pred : α → Int → Bool → Bool) (is_train : Bool) : List (α × Int) :=
  (datas.zip labels).filter (fun p => ! skip_pred p.1 p.2 is_train)

/-- The raw `self._weight` before normalization: the function branch maps
`sample_weight` over the filtered data, the array branch is taken as-is
(`_post_init`, the `callable(self.sample_weight)` test). -/
def rawWeights (sw : SampleWeight α) (pairs : List (α × Int)) : List ℚ :=
  match sw with
  | SampleWeight.fn f => pairs.map (fun p => f p.1 p.2)
  | SampleWeight.arr w => w

/-- Model of `np.max` over a weight vector (meaningful only on nonempty input; on
empty input numpy raises, which the caller `postInit` models as an error
before ever calling this). -/
def listMax : List ℚ → ℚ
  | [] => 0
  | h :: t => t.foldl max h

/-- Model of `np.min` over a weight vector, same conventions as `listMax`. -/
def listMin : List ℚ → ℚ
  | [] => 0
  | h :: t => t.foldl min h

/-- Number of occurrences of label `l` in a label list: one entry of
`Counter(np.asarray(labels).flatten())`. -/
def countLabel (labels : List Int) (l : Int) : Nat :=
  (labels.filter (fun x => x == l)).length

/-- Normalization of a weight vector as `_post_init` performs it:
`self._weight = self._weight / np.sum(self._weight)`. -/
def normalizeW (w : List ℚ) : List ℚ :=
  w.map (fun x => x / w.sum)

/-- Model of `BaseDataset._post_init` on the already-filled `datas` / `labels`:
filter by `skip_pred`, build the raw weight vector, check
`assert len(self._weight) == len(self.datas)`, normalize, and compute
`uniform_weight_flag = (np.max(w) / np.min(w) < 1.5)`.  `np.max` of an
empty vector raises (`zero-size array to reduction operation`), modelled
as the second error case. -/
def postInit (fillDatas : List α) (fillLabels : List Int) (is_train : Bool)
    (skip_pred : α → Int → Bool → Bool) (sw : SampleWeight α)
    (return_id : Bool) : Except String (DatasetState α) :=
  if (rawWeights sw (pyFilter fillDatas fillLabels skip_pred is_train)).length ≠
      (pyFilter fillDatas fillLabels skip_pred is_train).length then
    Except.error ("dimension not match!")
  else if (normalizeW (rawWeights sw (pyFilter fillDatas fillLabels skip_pred is_train))).isEmpty then
    Except.error ("zero-size array to reduction operation maximum which has no identity")
  else
    Except.ok
      { datas := (pyFilter fillDatas fillLabels skip_pred is_train).map Prod.fst
        labels := (pyFilter fillDatas fillLabels skip_pred is_train).map Prod.snd
        weight := normalizeW (rawWeights sw (pyFilter fillDatas fillLabels skip_pred is_train))
        uniform_weight_flag :=
          decide (listMax (normalizeW (rawWeights sw (pyFilter fillDatas fillLabels skip_pred is_train))) /
                  listMin (normalizeW (rawWeights sw (pyFilter fillDatas fillLabels skip_pred is_train))) < 3 / 2)
        is_train := is_train
        return_id := return_id }

/-- Model of `BaseDataset.__init__` after `_fill_data` has produced
`fillDatas` / `fillLabels`: the `auto_weight` branch asserts
`sample_weight is None`, builds the `Counter` over the *as-filled* labels
(the filter pass has not run yet), and installs
`lambda data, label: counter[label]` with `counter[x] = 1.0 / count(x)`;
then `_post_init` runs. -/
def datasetInit (fillDatas : List α) (fillLabels : List Int) (is_train : Bool)
    (skip_pred : Option (α → Int → Bool → Bool))
    (sample_weight : Option (SampleWeight α)) (auto_weight : Bool)
    (return_id : Bool) : Except String (DatasetState α) :=
  let sp := skip_pred.getD (fun _ _ _ => false)
  if auto_weight && sample_weight.isSome then
    Except.error ("auto_weight and sample_weight are mutually exclusive!")
  else
    let sw : SampleWeight α :=
      if auto_weight then
        SampleWeight.fn (fun _ l => 1 / (countLabel fillLabels l : ℚ))
      else
        sample_weight.getD (SampleWeight.fn (fun _ _ => 1))
    postInit fillDatas fillLabels is_train sp sw return_id

/-- The index sequence produced by one call of `BaseDataset.get_data`:
`ids = list(range(size))`; if `uniform_weight_flag` then
`random.shuffle(ids)`; then for each step `_` in `range(size)` the drawn
`id` is `_` in test mode, `ids[_]` in train/uniform mode, and
`np.random.choice(ids, p=self._weight)` in train/non-uniform mode.
`shuffle` is the `random.shuffle` oracle (contract: returns a permutation
of its input) and `choice` gives the value drawn at each step by
`np.random.choice`. -/
def getDataIndices (is_train uniform_weight_flag : Bool) (size : Nat)
    (shuffle : List Nat → List Nat) (choice : Nat → Nat) : List Nat :=
  let ids := List.range size
  let ids := if uniform_weight_flag then shuffle ids else ids
  (List.range size).map (fun t =>
    if ! is_train then t
    else if uniform_weight_flag then ids.getD t 0
    else choice t)

/-- Model of `CombinedDataset.__init__` / `_fill_data`: concatenate the children's
`datas` and `labels`, normalize the mixing `weights`, set
`indexes = range(len(datasets))`, and run the inherited
`BaseDataset.__init__(is_train=True, skip_pred=None, transform=None,
auto_weight=False, return_id=False)` (so `sample_weight` is the default
`None`).  Returns the base state, the normalized mixing weights, and
`indexes`.  Note: no comparison of `len(weights)` with `len(datasets)`
occurs anywhere on this path. -/
def combinedInit (childDatas : List (List α)) (childLabels : List (List Int))
    (weights : List ℚ) :
    Except String (DatasetState α × List ℚ × List Nat) :=
  let datas := childDatas.flatten
  let labels := childLabels.flatten
  let wmix := weights.map (fun x => x / weights.sum)
  let indexes := List.range childDatas.length
  (datasetInit datas labels true none none false false).map
    (fun st => (st, wmix, indexes))

/-- Model of `np.random.choice(a, p=p)` as used by `CombinedDataset._get_one_data`:
numpy first checks `len(a) == len(p)` and raises
`ValueError: a and p must have same size` on mismatch; otherwise it
returns a drawn element of `a`, modelled by the position `pick` chosen by
the randomness oracle. -/
def npChoiceIdx (a : List Nat) (p : List ℚ) (pick : Nat) : Except String Nat :=
  if a.length ≠ p.length then
    Except.error ("a and p must have same size")
  else
    Except.ok (a.getD pick 0)

/-- The try/except body of `CombinedDataset._get_one_data` for the drawn
child index: the child's live generator is a pair `(pass number, items
not yet yielded in this pass)`, and `passes p` is the item sequence the
child's `p`-th `get_data()` call yields.  `next` on a nonempty remainder
returns its head; on an empty remainder the `StopIteration` is caught,
the generator is replaced by a fresh `get_data()` call (`passes (p+1)`)
and `next` is retried once — a second `StopIteration` (empty fresh pass)
propagates, modelled as `none`. -/
def pullChild (passes : Nat → List γ) (g : Nat × List γ) :
    Option (γ × (Nat × List γ)) :=
  match g.2 with
  | x :: rest => some (x, (g.1, rest))
  | [] =>
    match passes (g.1 + 1) with
    | x :: rest => some (x, (g.1 + 1, rest))
    | [] => none

/-- Worker for `splitTokens`: walks the character list with an
accumulator for the current (reversed) token, ending a token at each
whitespace run — the semantics of Python `str.split()` with no
argument. -/
def wordsAux : List Char → List Char → List String
  | [], acc => if acc = [] then [] else [String.mk acc.reverse]
  | c :: cs, acc =>
    if c.isWhitespace then
      if acc = [] then wordsAux cs [] else String.mk acc.reverse :: wordsAux cs []
    else wordsAux cs (c :: acc)

/-- Model of `FileListDataset._fill_data` line tokenization: Python `str.split()`
with no argument splits on runs of whitespace and drops empty pieces. -/
def splitTokens (s : String) : List String :=
  wordsAux s.toList []

/-- Python truthiness of `line.strip()`: the stripped string is nonempty
exactly when the line has some non-whitespace character. -/
def lineKept (s : String) : Bool :=
  s.toList.any (fun c => ! c.isWhitespace)

/-- Decimal value of a digit-character list (accumulator form). -/
def digitsVal : List Char → Nat → Nat
  | [], acc => acc
  | c :: cs, acc => digitsVal cs (acc * 10 + (c.toNat - 48))

/-- Python `int(s)` on a whitespace-free token: optional sign followed by
a nonempty digit string; anything else raises `ValueError`, modelled as
`none`.  (The whitespace-stripping of `int` is a no-op on tokens produced
by `str.split()`.) -/
def pyInt (s : String) : Option Int :=
  match s.toList with
  | [] => none
  | c :: cs =>
    if c = ('-') then
      if cs ≠ [] ∧ cs.all Char.isDigit then some (-(digitsVal cs 0 : Int))
      else none
    else if c = ('+') then
      if cs ≠ [] ∧ cs.all Char.isDigit then some ((digitsVal cs 0 : Int))
      else none
    else
      if (c :: cs).all Char.isDigit then some ((digitsVal (c :: cs) 0 : Int))
      else none

/-- Sequence a list of optional values, failing on the first `none`:
models the wholesale failure of the list comprehension
`[int(x[1]) for x in data]` (one bad label aborts everything, no partial
recovery). -/
def seqOption : List (Option Int) → Option (List Int)
  | [] => some []
  | none :: _ => none
  | some x :: t => (seqOption t).map (fun xs => x :: xs)

/-- The lines `_fill_data` keeps: `for line in f.readlines() if line.strip()`. -/
def keptLines (lines : List String) : List String :=
  lines.filter (fun l => lineKept l)

/-- First token of a kept line: `line.split()[0]` (the stored path;
`path_prefix` is the empty string here). -/
def pathTok (l : String) : String :=
  (splitTokens l).headD ("")

/-- Second token of a kept line or the default label:
`line.split()[1] if len(line.split()) > 1 else '0'`. -/
def labelTok (l : String) : String :=
  (splitTokens l).getD 1 ("0")

/-- Model of `FileListDataset._fill_data` on the list file's lines: keep non-blank
lines, take `(first token, second token or "0")` per kept line, and
convert every label with `int`; a `ValueError` in any conversion is
re-raised and aborts the whole fill. -/
def fillDataFileList (lines : List String) :
    Except String (List String × List Int) :=
  match seqOption ((keptLines lines).map (fun l => pyInt (labelTok l))) with
  | some labels => Except.ok ((keptLines lines).map pathTok, labels)
  | none => Except.error ("invalid label number, maybe there is space in image path?")

/-- Modelled from the spec (section 4.1, claim C3): the raw auto-weights
the spec predicts, computed from the FILTERED label sequence — each
sample's raw weight is one over the count of its label *in the filtered
set*.  Kept separate from the source-derived `datasetInit` so the two can
be compared. -/
def specAutoRawWeights (filteredLabels : List Int) : List ℚ :=
  filteredLabels.map (fun l => 1 / (countLabel filteredLabels l : ℚ))

/-- Rendering of one file-list record as a line, the inverse direction of
the format `path label_id` of section 6 of the spec. -/
def renderLine (path : String) (label : Int) : String :=
  path ++ (" ") ++ toString label

/-! ### Helper lemmas -/

theorem sum_map_div (l : List ℚ) (s : ℚ) :
    (l.map (fun x => x / s)).sum = l.sum / s := by
  induction l with
  | nil => simp
  | cons x t ih => simp [ih, add_div]

theorem map_getD_range (l : List Nat) :
    (List.range l.length).map (fun t => l.getD t 0) = l := by
  induction l with
  | nil => rfl
  | cons x t ih =>
    rw [List.length_cons, List.range_succ_eq_map, List.map_cons, List.map_map]
    refine congrArg₂ List.cons rfl ?_
    simpa [Function.comp_def] using ih

theorem getDataIndices_test (u : Bool) (n : Nat) (s : List Nat → List Nat)
    (c : Nat → Nat) : getDataIndices false u n s c = List.range n := by
  simp [getDataIndices]

theorem getDataIndices_train_uniform (n : Nat) (s : List Nat → List Nat)
    (c : Nat → Nat) (hlen : (s (List.range n)).length = n) :
    getDataIndices true true n s c = s (List.range n) := by
  have h2 : ∀ l : List Nat, l.length = n →
      List.map (fun t => l.getD t 0) (List.range n) = l := by
    intro l hl
    rw [← hl]
    exact map_getD_range l
  unfold getDataIndices
  simp only [if_true, Bool.not_true, Bool.false_eq_true, if_false]
  exact h2 _ hlen

theorem postInit_ok_elim {fd : List α} {fl : List Int} {t : Bool}
    {sp : α → Int → Bool → Bool} {sw : SampleWeight α} {rid : Bool}
    {st : DatasetState α}
    (h : postInit fd fl t sp sw rid = Except.ok st) :
    (rawWeights sw (pyFilter fd fl sp t)).length = (pyFilter fd fl sp t).length ∧
    pyFilter fd fl sp t ≠ [] ∧
    st.datas = (pyFilter fd fl sp t).map Prod.fst ∧
    st.labels = (pyFilter fd fl sp t).map Prod.snd ∧
    st.weight = normalizeW (rawWeights sw (pyFilter fd fl sp t)) ∧
    st.uniform_weight_flag
      = decide (listMax st.weight / listMin st.weight < 3 / 2) ∧
    st.is_train = t ∧ st.return_id = rid := by
  unfold postInit at h
  split_ifs at h with h1 h2
  cases h
  refine ⟨not_not.mp h1, ?_, rfl, rfl, rfl, rfl, rfl, rfl⟩
  intro hpair
  apply h2
  have hw : rawWeights sw (pyFilter fd fl sp t) = [] := by
    have hlen := not_not.mp h1
    rw [hpair] at hlen ⊢
    exact List.length_eq_zero.mp (by simpa using hlen)
  simp [normalizeW, hw]

theorem countLabel_pos {fl : List Int} {l : Int} (h : l ∈ fl) :
    0 < countLabel fl l := by
  have hm : l ∈ fl.filter (fun x => x == l) :=
    List.mem_filter.mpr ⟨h, by simp⟩
  exact List.length_pos.mpr (List.ne_nil_of_mem hm)

theorem foldl_max_self (n : Nat) (x : ℚ) :
    List.foldl max x (List.replicate n x) = x := by
  induction n with
  | zero => rfl
  | succ k ih => simp [List.replicate_succ, ih]

theorem foldl_min_self (n : Nat) (x : ℚ) :
    List.foldl min x (List.replicate n x) = x := by
  induction n with
  | zero => rfl
  | succ k ih => simp [List.replicate_succ, ih]

theorem listMax_replicate (n : Nat) (x : ℚ) :
    listMax (List.replicate (n + 1) x) = x := by
  simp [List.replicate_succ, listMax, foldl_max_self]

theorem listMin_replicate (n : Nat) (x : ℚ) :
    listMin (List.replicate (n + 1) x) = x := by
  simp [List.replicate_succ, listMin, foldl_min_self]

theorem getD_map_of_lt {β : Type u} {δ : Type v} (f : β → δ) (l : List β) (i : Nat)
    (h : i < l.length) (d : β) (d2 : δ) :
    (l.map f).getD i d2 = f (l.getD i d) := by
  rw [List.getD_eq_getElem?_getD, List.getD_eq_getElem?_getD, List.getElem?_map,
      List.getElem?_eq_getElem h]
  simp

theorem seqOption_isSome_iff (os : List (Option Int)) :
    (seqOption os).isSome = true ↔ ∀ o ∈ os, o.isSome = true := by
  induction os with
  | nil => simp [seqOption]
  | cons o t ih =>
    cases o with
    | none => simp [seqOption]
    | some x =>
      simp only [seqOption, List.forall_mem_cons]
      cases hs : seqOption t with
      | none => simp [← ih, hs]
      | some xs => simp [← ih, hs]

theorem seqOption_eq_some {os : List (Option Int)} {xs : List Int}
    (h : seqOption os = some xs) :
    xs.length = os.length ∧
    ∀ i, i < xs.length → os.getD i none = some (xs.getD i 0) := by
  induction os generalizing xs with
  | nil =>
    cases h
    simp
  | cons o t ih =>
    cases o with
    | none => simp [seqOption] at h
    | some x =>
      rw [seqOption] at h
      obtain ⟨xs0, hs, hxs⟩ := Option.map_eq_some'.mp h
      subst hxs
      obtain ⟨hlen, hidx⟩ := ih hs
      refine ⟨by simp [hlen], ?_⟩
      intro i hi
      cases i with
      | zero => rfl
      | succ k =>
        simp only [List.getD_cons_succ]
        exact hidx k (by simpa using hi)

/-! ### Claims -/

/-- C1: for every dataset with `is_train = False` and size `N`, every call
of `get_data` yields the indices `0, 1, ..., N-1` in exactly that order,
regardless of the weight configuration (any `uniform_weight_flag` and any
`np.random.choice` / `random.shuffle` outcome), and two separate calls —
here: two arbitrary instantiations of the randomness oracles and flags —
yield identical index sequences. -/
theorem C1_test_mode_identity_order (u1 u2 : Bool) (n : Nat)
    (s1 s2 : List Nat → List Nat) (c1 c2 : Nat → Nat) :
    getDataIndices false u1 n s1 c1 = List.range n ∧
    getDataIndices false u1 n s1 c1 = getDataIndices false u2 n s2 c2 := by
  rw [getDataIndices_test, getDataIndices_test]
  exact ⟨rfl, rfl⟩

/-- C2: for a dataset in train mode with `uniform_weight_flag` set, one
full call of `get_data` draws a sequence of `N` indices that is a
permutation of `0..N-1` — given the contract of `random.shuffle`, namely
that it permutes its input list. -/
theorem C2_train_uniform_permutation (n : Nat) (shuffle : List Nat → List Nat)
    (choice : Nat → Nat)
    (hs : (shuffle (List.range n)).Perm (List.range n)) :
    (getDataIndices true true n shuffle choice).Perm (List.range n) := by
  rw [getDataIndices_train_uniform n shuffle choice (by simpa using hs.length_eq)]
  exact hs

/-- Witness for C2 at `N = 3` with `random.shuffle` realized as reversal. -/
theorem C2_witness :
    ((List.reverse (List.range 3)).Perm (List.range 3)) ∧
    (getDataIndices true true 3 List.reverse (fun _ => 0)).Perm (List.range 3) :=
  ⟨by decide, C2_train_uniform_permutation 3 List.reverse (fun _ => 0) (by decide)⟩

/-- C4: the `StopIteration` of an exhausted child generator is caught by
`CombinedDataset._get_one_data` and never propagates: provided every pass
of the child's `get_data` is nonempty (every successfully constructed
dataset has size at least 1, see C10), `pullChild` always returns an item,
and on an exhausted generator it returns the first item of the fresh pass
`passes (p+1)` with the replaced generator state. -/
theorem C4_stop_iteration_never_propagates (passes : Nat → List γ)
    (g : Nat × List γ) (hne : ∀ p, passes p ≠ []) :
    (pullChild passes g).isSome = true ∧
    (g.2 = [] → ∀ x rest, passes (g.1 + 1) = x :: rest →
      pullChild passes g = some (x, (g.1 + 1, rest))) := by
  obtain ⟨p, rem⟩ := g
  cases rem with
  | cons x r => simp [pullChild]
  | nil =>
    cases hp : passes (p + 1) with
    | nil => exact absurd hp (hne (p + 1))
    | cons x r =>
      constructor
      · simp [pullChild, hp]
      · intro _ x2 rest2 hp2
        injection hp2 with e1 e2
        subst e1
        subst e2
        simp [pullChild, hp]

/-- Witness for C4: a child whose every pass is `[7]`, pulled on an
exhausted generator: the item of the fresh pass is returned. -/
theorem C4_witness :
    pullChild (fun _ => [7]) ((0 : Nat), ([] : List Nat)) = some (7, (1, [])) ∧
    (pullChild (fun _ => [7]) ((0 : Nat), ([] : List Nat))).isSome = true := by
  have h := C4_stop_iteration_never_propagates (fun _ => [7])
    ((0 : Nat), ([] : List Nat)) (fun _ => by simp)
  exact ⟨h.2 rfl 7 [] rfl, h.1⟩

/-! ### More helper lemmas for the weighting claims -/

theorem datasetInit_auto_eq (fd : List α) (fl : List Int) (t : Bool)
    (sp : Option (α → Int → Bool → Bool)) (rid : Bool) :
    datasetInit fd fl t sp none true rid =
      postInit fd fl t (sp.getD (fun _ _ _ => false))
        (SampleWeight.fn (fun _ l => 1 / (countLabel fl l : ℚ))) rid := rfl

theorem datasetInit_default_eq (fd : List α) (fl : List Int) (t : Bool)
    (rid : Bool) :
    datasetInit fd fl t none none false rid =
      postInit fd fl t (fun _ _ _ => false)
        (SampleWeight.fn (fun _ _ => 1)) rid := rfl

theorem combinedInit_eq (cd : List (List α)) (cl : List (List Int))
    (w : List ℚ) :
    combinedInit cd cl w =
      (postInit cd.flatten cl.flatten true (fun _ _ _ => false)
          (SampleWeight.fn (fun _ _ => 1)) false).map
        (fun st => (st, w.map (fun x => x / w.sum), List.range cd.length)) := rfl

theorem autoRaw_pos {fd : List α} {fl : List Int}
    {sp : α → Int → Bool → Bool} {t : Bool} :
    ∀ x ∈ rawWeights (SampleWeight.fn (fun _ l => 1 / (countLabel fl l : ℚ)))
        (pyFilter fd fl sp t), 0 < x := by
  intro x hx
  simp only [rawWeights, pyFilter, List.mem_map] at hx
  obtain ⟨⟨a, b⟩, hp, rfl⟩ := hx
  have hmem : b ∈ fl := (List.of_mem_zip (List.mem_of_mem_filter hp)).2
  have hc : (0 : ℚ) < (countLabel fl b : ℚ) := by
    exact_mod_cast countLabel_pos hmem
  exact one_div_pos.mpr hc

theorem normalizeW_nonneg_sum_one {w : List ℚ} (hw : w ≠ [])
    (hpos : ∀ x ∈ w, 0 < x) :
    (∀ x ∈ normalizeW w, 0 ≤ x) ∧ (normalizeW w).sum = 1 ∧
      (normalizeW w).length = w.length := by
  have hS : 0 < w.sum := List.sum_pos w hpos hw
  refine ⟨?_, ?_, by simp [normalizeW]⟩
  · intro x hx
    simp only [normalizeW, List.mem_map] at hx
    obtain ⟨y, hy, rfl⟩ := hx
    exact le_of_lt (div_pos (hpos y hy) hS)
  · simp only [normalizeW]
    rw [sum_map_div]
    exact div_self (ne_of_gt hS)

theorem normalizeW_getD_div {w : List ℚ} {i j : Nat} (hi : i < w.length)
    (hj : j < w.length) (hS : w.sum ≠ 0) (d : ℚ) :
    (normalizeW w).getD i 0 / (normalizeW w).getD j 0 =
      w.getD i d / w.getD j d := by
  simp only [normalizeW]
  rw [getD_map_of_lt (fun x => x / w.sum) w i hi d 0,
      getD_map_of_lt (fun x => x / w.sum) w j hj d 0,
      div_div_div_comm, div_self hS, div_one]

/-- C3 as stated is FALSE on the code: with `auto_weight`, the `Counter`
is built in `__init__` before `_post_init` runs `skip_pred`, so raw
weights are inverse PRE-filter label counts.  Concrete input: fill datas
`[0,1,2]`, labels `[0,0,1]`, `skip_pred` drops the sample with data `0`.
The filtered labels are `[0,1]`, both with filtered count `1`, so the
claim predicts equal raw weights (predicted ratio `c_b / c_a = 1`,
normalized `[1/2, 1/2]`); the engine instead uses pre-filter counts
`2` and `1`, yielding normalized weights `[1/3, 2/3]` whose ratio
`(1/3)/(2/3) = 1/2` differs from the predicted ratio `1`. -/
theorem C3_counterexample :
    datasetInit ([0, 1, 2] : List Int) [0, 0, 1] true
        (some (fun d _ _ => d == 0)) none true false
      = Except.ok ⟨[1, 2], [0, 1], [1/3, 2/3], false, true, false⟩ ∧
    countLabel [0, 1] 0 = 1 ∧ countLabel [0, 1] 1 = 1 ∧
    normalizeW (specAutoRawWeights [0, 1]) = [1/2, 1/2] ∧
    ((1 : ℚ)/3) / ((2 : ℚ)/3) ≠
      (countLabel [0, 1] 1 : ℚ) / (countLabel [0, 1] 0 : ℚ) := by
  refine ⟨?_, by decide, by decide, ?_, ?_⟩
  · norm_num [datasetInit_auto_eq, postInit, pyFilter, rawWeights, normalizeW,
      listMax, listMin, countLabel]
  · norm_num [normalizeW, specAutoRawWeights, countLabel]
  · norm_num [countLabel]

/-- C3 (amended): with `auto_weight` set, the raw weight of every sample
equals `1 / count`, where the count of its (scalar) label is taken over
the AS-FILLED, pre-filter label sequence (the `Counter` is built before
the filter pass); hence the stored weights are the normalization of those
inverse pre-filter frequencies, and for any two samples the stored weight
ratio is `c_b / c_a` with pre-filter counts. -/
theorem C3_auto_weight_inverse_prefilter_frequency {fd : List α}
    {fl : List Int} {t rid : Bool} {sp : Option (α → Int → Bool → Bool)}
    {st : DatasetState α}
    (hok : datasetInit fd fl t sp none true rid = Except.ok st) :
    st.weight = normalizeW (st.labels.map (fun l => 1 / (countLabel fl l : ℚ))) ∧
    ∀ i j, i < st.labels.length → j < st.labels.length →
      st.weight.getD i 0 / st.weight.getD j 0 =
        (countLabel fl (st.labels.getD j 0) : ℚ) /
          (countLabel fl (st.labels.getD i 0) : ℚ) := by
  rw [datasetInit_auto_eq] at hok
  obtain ⟨hlen, hne, hdatas, hlabels, hweight, hflag, hit, hrid⟩ :=
    postInit_ok_elim hok
  set P := pyFilter fd fl (sp.getD (fun _ _ _ => false)) t with hP
  have hw2 : st.weight
      = normalizeW (P.map (fun p => 1 / (countLabel fl p.2 : ℚ))) := hweight
  have hmapmap : P.map (fun p => 1 / (countLabel fl p.2 : ℚ))
      = st.labels.map (fun l => 1 / (countLabel fl l : ℚ)) := by
    rw [hlabels, List.map_map]
    rfl
  constructor
  · rw [hw2, hmapmap]
  · intro i j hi hj
    have hlablen : st.labels.length = P.length := by
      rw [hlabels, List.length_map]
    have hiP : i < P.length := hlablen ▸ hi
    have hjP : j < P.length := hlablen ▸ hj
    have hpos : ∀ x ∈ P.map (fun p => 1 / (countLabel fl p.2 : ℚ)), 0 < x :=
      @autoRaw_pos _ fd fl (sp.getD (fun _ _ _ => false)) t
    have hmne : P.map (fun p => 1 / (countLabel fl p.2 : ℚ)) ≠ [] := by
      simpa using hne
    have hS : (P.map (fun p => 1 / (countLabel fl p.2 : ℚ))).sum ≠ 0 :=
      ne_of_gt (List.sum_pos _ hpos hmne)
    have d0 : α × Int := P.head hne
    have hiM : i < (P.map (fun p => 1 / (countLabel fl p.2 : ℚ))).length := by
      rw [List.length_map]
      exact hiP
    have hjM : j < (P.map (fun p => 1 / (countLabel fl p.2 : ℚ))).length := by
      rw [List.length_map]
      exact hjP
    have key : ∀ a b : ℚ, (1 / a) / (1 / b) = b / a := by
      intro a b
      rw [div_div_div_comm, one_div_one, one_div_div]
    rw [hw2, normalizeW_getD_div hiM hjM hS 0,
        getD_map_of_lt (fun p => 1 / (countLabel fl p.2 : ℚ)) P i hiP d0 0,
        getD_map_of_lt (fun p => 1 / (countLabel fl p.2 : ℚ)) P j hjP d0 0,
        hlabels,
        getD_map_of_lt Prod.snd P i hiP d0 0,
        getD_map_of_lt Prod.snd P j hjP d0 0]
    exact key _ _

/-- Witness for the amended C3, at the same concrete input as the
counterexample: the stored weights `[1/3, 2/3]` are the normalized
inverse pre-filter frequencies of the filtered labels `[0, 1]` with
respect to the fill labels `[0, 0, 1]`. -/
theorem C3_amended_witness :
    (⟨[1, 2], [0, 1], [1/3, 2/3], false, true, false⟩ : DatasetState Int).weight
      = normalizeW (([0, 1] : List Int).map
          (fun l => 1 / (countLabel [0, 0, 1] l : ℚ))) :=
  (C3_auto_weight_inverse_prefilter_frequency
    (show datasetInit ([0, 1, 2] : List Int) [0, 0, 1] true
        (some (fun d _ _ => d == 0)) none true false
      = Except.ok ⟨[1, 2], [0, 1], [1/3, 2/3], false, true, false⟩ by
    norm_num [datasetInit_auto_eq, postInit, pyFilter, rawWeights, normalizeW,
      listMax, listMin, countLabel])).1

/-- C5 as stated is FALSE on the code: `CombinedDataset.__init__` /
`_fill_data` never compare `len(weights)` with `len(datasets)`, so a
mismatched construction succeeds: two children with one mixing weight
construct fine. -/
theorem C5_counterexample :
    combinedInit ([[0], [1]] : List (List Int)) [[5], [6]] [1]
      = Except.ok (⟨[0, 1], [5, 6], [1/2, 1/2], true, true, false⟩,
          [1], [0, 1]) ∧
    ([[0], [1]] : List (List Int)).length ≠ ([1] : List ℚ).length := by
  refine ⟨?_, by decide⟩
  norm_num [combinedInit_eq, postInit, pyFilter, rawWeights, normalizeW,
    listMax, listMin, Except.map, List.range_succ]

/-- C5 (amended): the length mismatch is not detected at construction;
it surfaces at the first `_get_one_data` call, where
`np.random.choice(self.indexes, p=self.weights)` raises
`ValueError: a and p must have same size`, because the constructed
`indexes` has length `len(datasets)` while the normalized mixing weights
keep length `len(weights)`. -/
theorem C5_mismatch_fails_at_first_draw {cd : List (List α)}
    {cl : List (List Int)} {w : List ℚ}
    {r : DatasetState α × List ℚ × List Nat}
    (hmis : cd.length ≠ w.length)
    (hok : combinedInit cd cl w = Except.ok r) (pick : Nat) :
    npChoiceIdx r.2.2 r.2.1 pick
      = Except.error ("a and p must have same size") := by
  rw [combinedInit_eq] at hok
  cases hx : postInit cd.flatten cl.flatten true (fun _ _ _ => false)
      (SampleWeight.fn (fun _ _ => 1)) false with
  | error e =>
    rw [hx] at hok
    exact Except.noConfusion hok
  | ok st =>
    rw [hx] at hok
    simp only [Except.map] at hok
    cases hok
    simp only [npChoiceIdx]
    rw [if_pos (by simpa using hmis)]

/-- Witness for the amended C5 at the counterexample input: the first
draw over `indexes = [0, 1]` with mixing weights `[1]` errors. -/
theorem C5_amended_witness :
    npChoiceIdx [0, 1] [1] 0 = Except.error ("a and p must have same size") :=
  C5_mismatch_fails_at_first_draw (by decide)
    (show combinedInit ([[0], [1]] : List (List Int)) [[5], [6]] [1]
      = Except.ok (⟨[0, 1], [5, 6], [1/2, 1/2], true, true, false⟩,
          [1], [0, 1]) by
    norm_num [combinedInit_eq, postInit, pyFilter, rawWeights, normalizeW,
      listMax, listMin, Except.map, List.range_succ]) 0

/-- C6: for every successfully constructed dataset,
`uniform_weight_flag` is set if and only if the maximum normalized weight
divided by the minimum normalized weight is strictly less than `1.5`. -/
theorem C6_uniform_flag_iff {fd : List α} {fl : List Int} {t : Bool}
    {sp : α → Int → Bool → Bool} {sw : SampleWeight α} {rid : Bool}
    {st : DatasetState α}
    (hok : postInit fd fl t sp sw rid = Except.ok st) :
    st.uniform_weight_flag = true ↔
      listMax st.weight / listMin st.weight < 3 / 2 := by
  obtain ⟨_, _, _, _, _, hflag, _, _⟩ := postInit_ok_elim hok
  rw [hflag]
  exact decide_eq_true_iff

/-- Witness for C6 at the two boundary inputs of the claim: raw weights
`[3, 2]` normalize to ratio exactly `3/2`, classified non-uniform; raw
weights `[1499999, 1000000]` normalize to ratio `1.499999`, classified
uniform. -/
theorem C6_witness :
    (⟨[0, 1], [0, 0], [3/5, 2/5], false, true, false⟩
        : DatasetState Int).uniform_weight_flag = false ∧
    (⟨[0, 1], [0, 0], [1499999/2499999, 1000000/2499999], true, true, false⟩
        : DatasetState Int).uniform_weight_flag = true := by
  have hA := C6_uniform_flag_iff
    (show postInit ([0, 1] : List Int) [0, 0] true (fun _ _ _ => false)
        (SampleWeight.arr [3, 2]) false
      = Except.ok ⟨[0, 1], [0, 0], [3/5, 2/5], false, true, false⟩ by
    norm_num [postInit, pyFilter, rawWeights, normalizeW, listMax, listMin,
      max_def, min_def])
  have hB := C6_uniform_flag_iff
    (show postInit ([0, 1] : List Int) [0, 0] true (fun _ _ _ => false)
        (SampleWeight.arr [1499999, 1000000]) false
      = Except.ok ⟨[0, 1], [0, 0], [1499999/2499999, 1000000/2499999],
          true, true, false⟩ by
    norm_num [postInit, pyFilter, rawWeights, normalizeW, listMax, listMin,
      max_def, min_def])
  refine ⟨?_, hB.mpr (by norm_num [listMax, listMin, max_def, min_def])⟩
  rw [Bool.eq_false_iff]
  intro hcontra
  exact absurd (hA.mp hcontra)
    (by norm_num [listMax, listMin, max_def, min_def])

/-- C7: after any successful construction whose raw weights are positive
(the spec's weighting-policy input domain), the stored normalized weight
vector has length `N` (the filtered sample count), every entry
non-negative, and sum exactly `1` (exact rationals stand in for the
floating-point tolerance). -/
theorem C7_normalized_weight_invariant {fd : List α} {fl : List Int}
    {t : Bool} {sp : α → Int → Bool → Bool} {sw : SampleWeight α}
    {rid : Bool} {st : DatasetState α}
    (hok : postInit fd fl t sp sw rid = Except.ok st)
    (hpos : ∀ x ∈ rawWeights sw (pyFilter fd fl sp t), 0 < x) :
    st.weight.length = st.datas.length ∧
    (∀ x ∈ st.weight, 0 ≤ x) ∧ st.weight.sum = 1 := by
  obtain ⟨hlen, hne, hdatas, _, hweight, _, _, _⟩ := postInit_ok_elim hok
  have hraw_ne : rawWeights sw (pyFilter fd fl sp t) ≠ [] := by
    intro h0
    apply hne
    apply List.length_eq_zero.mp
    rw [← hlen, h0]
    rfl
  obtain ⟨hnn, hsum, hlen2⟩ := normalizeW_nonneg_sum_one hraw_ne hpos
  refine ⟨?_, ?_, ?_⟩
  · rw [hweight, hdatas, List.length_map, hlen2, hlen]
  · rw [hweight]
    exact hnn
  · rw [hweight]
    exact hsum

/-- Witness for C7 on a one-sample dataset with the default constant
weight function. -/
theorem C7_witness :
    ((⟨[0], [5], [(1 : ℚ)], true, true, false⟩ : DatasetState Int).weight.length
      = (⟨[0], [5], [(1 : ℚ)], true, true, false⟩ : DatasetState Int).datas.length) ∧
    (∀ x ∈ (⟨[0], [5], [(1 : ℚ)], true, true, false⟩ : DatasetState Int).weight,
      0 ≤ x) ∧
    (⟨[0], [5], [(1 : ℚ)], true, true, false⟩ : DatasetState Int).weight.sum = 1 :=
  C7_normalized_weight_invariant
    (show postInit ([0] : List Int) [5] true (fun _ _ _ => false)
        (SampleWeight.fn (fun _ _ => 1)) false
      = Except.ok ⟨[0], [5], [(1 : ℚ)], true, true, false⟩ by
    norm_num [postInit, pyFilter, rawWeights, normalizeW, listMax, listMin])
    (by norm_num [rawWeights, pyFilter])

/-- C8 as stated is FALSE on the code: a line whose (intended) path
contains whitespace is only detected when `int` fails on the token after
the first whitespace run.  Concrete input: the record with path `a 1`
and label `3` renders as the line `a 1 3`; its second token `1` is a
valid integer, so `_fill_data` silently mis-parses it as path `a` with
label `1` instead of raising — no fatal parse error occurs. -/
theorem C8_counterexample :
    (("a 1").toList.any Char.isWhitespace) = true ∧
    renderLine ("a 1") 3 = ("a 1 3") ∧
    fillDataFileList [renderLine ("a 1") 3] = Except.ok ([("a")], [1]) :=
  ⟨by decide, by decide, by decide⟩

/-- C8 (amended): each non-blank line yields exactly one record made of
its first whitespace token (the path) and its second token parsed by
`int` (defaulting to `0` when there is at most one token); blank lines
yield no record; and the fill fails — wholesale, with no partial
recovery — exactly when some non-blank line's second token is not a
valid integer literal.  Whitespace inside a path is caught only through
that failure; when the token after the first whitespace run happens to
be numeric, the line is silently mis-parsed (see the counterexample). -/
theorem C8_file_list_parse (lines : List String) :
    ((∃ r, fillDataFileList lines = Except.ok r) ↔
      ∀ l ∈ keptLines lines, (pyInt (labelTok l)).isSome = true) ∧
    (∀ paths labels, fillDataFileList lines = Except.ok (paths, labels) →
      paths = (keptLines lines).map pathTok ∧
      labels.length = paths.length ∧
      ∀ i, i < labels.length →
        pyInt (labelTok ((keptLines lines).getD i (""))) =
          some (labels.getD i 0)) ∧
    (∀ l : String, (splitTokens l).length ≤ 1 → labelTok l = ("0")) := by
  have hos : ((seqOption ((keptLines lines).map (fun l => pyInt (labelTok l)))).isSome
        = true) ↔
      ∀ l ∈ keptLines lines, (pyInt (labelTok l)).isSome = true := by
    rw [seqOption_isSome_iff]
    simp
  refine ⟨?_, ?_, ?_⟩
  · rw [← hos]
    unfold fillDataFileList
    cases hs : seqOption ((keptLines lines).map (fun l => pyInt (labelTok l))) with
    | some ls => simp [hs]
    | none => simp [hs]
  · intro paths labels h
    unfold fillDataFileList at h
    cases hs : seqOption ((keptLines lines).map (fun l => pyInt (labelTok l))) with
    | none =>
      rw [hs] at h
      exact Except.noConfusion h
    | some ls =>
      rw [hs] at h
      injection h with h
      injection h with hpaths hlabels
      obtain ⟨hlen, hidx⟩ := seqOption_eq_some hs
      subst hpaths
      subst hlabels
      refine ⟨rfl, by simpa using hlen, ?_⟩
      intro i hi
      have hiK : i < (keptLines lines).length := by
        rw [← List.length_map (keptLines lines) (fun l => pyInt (labelTok l)),
          ← hlen]
        exact hi
      have := hidx i hi
      rwa [getD_map_of_lt (fun l => pyInt (labelTok l)) (keptLines lines) i hiK
        ("") none] at this
  · intro l hl
    simp [labelTok, List.getD_eq_getElem?_getD, List.getElem?_eq_none hl]

/-- Witness for the amended C8 on the lines `["a 3", "", "b"]`: parsing
succeeds (all second tokens are integer literals, with `b`'s defaulted to
`0`) and the first kept line's label parses to the first stored label. -/
theorem C8_amended_witness :
    (∃ r, fillDataFileList [("a 3"), (""), ("b")] = Except.ok r) ∧
    pyInt (labelTok ((keptLines [("a 3"), (""), ("b")]).getD 0 (""))) =
      some (([3, 0] : List Int).getD 0 0) := by
  have h1 := (C8_file_list_parse [("a 3"), (""), ("b")]).1
  have h2 := (C8_file_list_parse [("a 3"), (""), ("b")]).2.1
    [("a"), ("b")] [3, 0] (by decide)
  exact ⟨h1.mpr (by decide), h2.2.2 0 (by decide)⟩

/-- C9: `CombinedDataset.__init__` hard-codes `is_train=True` in its
`super().__init__` call, regardless of the children's modes, and with the
default constant `sample_weight` the normalized weights are uniform, so
`uniform_weight_flag` is always set; consequently a combinator has no
deterministic test-mode iteration — its epoch-level index sequence is
always the shuffle of `0..N-1` over the concatenated sample count `N`
(given the permutation contract of `random.shuffle`). -/
theorem C9_combined_is_always_train {cd : List (List α)}
    {cl : List (List Int)} {w : List ℚ}
    {r : DatasetState α × List ℚ × List Nat}
    (hok : combinedInit cd cl w = Except.ok r)
    (shuffle : List Nat → List Nat) (choice : Nat → Nat)
    (hs : (shuffle (List.range r.1.datas.length)).Perm
        (List.range r.1.datas.length)) :
    r.1.is_train = true ∧ r.1.uniform_weight_flag = true ∧
    getDataIndices r.1.is_train r.1.uniform_weight_flag r.1.datas.length
        shuffle choice
      = shuffle (List.range r.1.datas.length) := by
  rw [combinedInit_eq] at hok
  cases hx : postInit cd.flatten cl.flatten true (fun _ _ _ => false)
      (SampleWeight.fn (fun _ _ => 1)) false with
  | error e =>
    rw [hx] at hok
    exact Except.noConfusion hok
  | ok st =>
    rw [hx] at hok
    simp only [Except.map] at hok
    cases hok
    obtain ⟨hlen, hne, hdatas, hlabels, hweight, hflag, hit, hrid⟩ :=
      postInit_ok_elim hx
    have hrawrep : rawWeights (SampleWeight.fn (fun _ _ => (1 : ℚ)))
        (pyFilter cd.flatten cl.flatten (fun _ _ _ => false) true)
        = List.replicate
            (pyFilter cd.flatten cl.flatten (fun _ _ _ => false) true).length
            (1 : ℚ) := by
      simp [rawWeights, List.map_const']
    have hnz : (pyFilter cd.flatten cl.flatten (fun _ _ _ => false) true).length
        ≠ 0 := by
      intro h0
      exact hne (List.length_eq_zero.mp h0)
    obtain ⟨m, hm⟩ := Nat.exists_eq_succ_of_ne_zero hnz
    have hwrep : st.weight = List.replicate (m + 1)
        (1 / ((m : ℚ) + 1)) := by
      rw [hweight, hrawrep, hm]
      simp only [normalizeW, List.map_replicate, List.sum_replicate,
        nsmul_eq_mul, mul_one]
      norm_num
    have hratOne : listMax st.weight / listMin st.weight = 1 := by
      rw [hwrep, listMax_replicate, listMin_replicate]
      apply div_self
      have : ((m : ℚ) + 1) ≠ 0 := by positivity
      positivity
    have hflagT : st.uniform_weight_flag = true := by
      rw [hflag, hratOne]
      norm_num
    refine ⟨hit, hflagT, ?_⟩
    rw [hit, hflagT]
    exact getDataIndices_train_uniform st.datas.length shuffle choice
      (by simpa [hit, hflagT] using hs.length_eq)

/-- Witness for C9 on two one-sample children with equal mixing weights,
`random.shuffle` realized as reversal. -/
theorem C9_witness :
    (⟨[0, 1], [5, 6], [1/2, 1/2], true, true, false⟩
        : DatasetState Int).is_train = true ∧
    (⟨[0, 1], [5, 6], [1/2, 1/2], true, true, false⟩
        : DatasetState Int).uniform_weight_flag = true ∧
    getDataIndices
        (⟨[0, 1], [5, 6], [1/2, 1/2], true, true, false⟩
          : DatasetState Int).is_train
        (⟨[0, 1], [5, 6], [1/2, 1/2], true, true, false⟩
          : DatasetState Int).uniform_weight_flag
        (⟨[0, 1], [5, 6], [1/2, 1/2], true, true, false⟩
          : DatasetState Int).datas.length List.reverse (fun _ => 0)
      = List.reverse (List.range
          (⟨[0, 1], [5, 6], [1/2, 1/2], true, true, false⟩
            : DatasetState Int).datas.length) :=
  C9_combined_is_always_train
    (show combinedInit ([[0], [1]] : List (List Int)) [[5], [6]] [1, 1]
      = Except.ok (⟨[0, 1], [5, 6], [1/2, 1/2], true, true, false⟩,
          [1/2, 1/2], [0, 1]) by
    norm_num [combinedInit_eq, postInit, pyFilter, rawWeights, normalizeW,
      listMax, listMin, Except.map, List.range_succ])
    List.reverse (fun _ => 0) (by decide)

/-- C10: a configuration whose filtered sample set is empty never
constructs: `_post_init` fails (with the default/function weighting, at
`np.max` over the empty normalized weight vector; with a nonempty
explicit weight array, one step earlier at the length assert), so every
successfully constructed dataset has size at least one — which is what
makes its `uniform_weight_flag` a well-defined boolean. -/
theorem C10_empty_filter_never_constructs {fd : List α} {fl : List Int}
    {t : Bool} {sp : α → Int → Bool → Bool} {sw : SampleWeight α}
    {rid : Bool} :
    (∀ st : DatasetState α, postInit fd fl t sp sw rid = Except.ok st →
      1 ≤ st.datas.length) ∧
    (pyFilter fd fl sp t = [] →
      ∀ st : DatasetState α, postInit fd fl t sp sw rid ≠ Except.ok st) ∧
    (pyFilter fd fl sp t = [] → rawWeights sw (pyFilter fd fl sp t) = [] →
      postInit fd fl t sp sw rid = Except.error
        ("zero-size array to reduction operation maximum which has no identity")) := by
  refine ⟨?_, ?_, ?_⟩
  · intro st hok
    obtain ⟨_, hne, hdatas, _, _, _, _, _⟩ := postInit_ok_elim hok
    rw [hdatas, List.length_map]
    exact List.length_pos.mpr hne
  · intro hpair st hok
    obtain ⟨_, hne, _, _, _, _, _, _⟩ := postInit_ok_elim hok
    exact hne hpair
  · intro hpair hraw
    unfold postInit
    rw [if_neg (by rw [hraw, hpair]; simp), if_pos (by rw [hraw]; rfl)]

/-- Witness for C10: a one-sample dataset constructs with size `1`; the
same fill with a reject-everything `skip_pred` cannot construct, and with
the default weight function it fails exactly with the empty `np.max`
error. -/
theorem C10_witness :
    (1 ≤ (⟨[0], [5], [(1 : ℚ)], true, true, false⟩
        : DatasetState Int).datas.length) ∧
    (postInit ([0] : List Int) [5] true (fun _ _ _ => true)
        (SampleWeight.fn (fun _ _ => 1)) false
      ≠ Except.ok ⟨[], [], [], true, true, false⟩) ∧
    postInit ([0] : List Int) [5] true (fun _ _ _ => true)
        (SampleWeight.fn (fun _ _ => 1)) false
      = Except.error
        ("zero-size array to reduction operation maximum which has no identity") := by
  refine ⟨?_, ?_, ?_⟩
  · exact (@C10_empty_filter_never_constructs Int [0] [5] true
        (fun _ _ _ => false) (SampleWeight.fn (fun _ _ => 1)) false).1
      (⟨[0], [5], [(1 : ℚ)], true, true, false⟩ : DatasetState Int)
      (by norm_num [postInit, pyFilter, rawWeights, normalizeW, listMax,
        listMin])
  · exact (@C10_empty_filter_never_constructs Int [0] [5] true
        (fun _ _ _ => true) (SampleWeight.fn (fun _ _ => 1)) false).2.1
      (by decide) (⟨[], [], [], true, true, false⟩ : DatasetState Int)
  · exact (@C10_empty_filter_never_constructs Int [0] [5] true
        (fun _ _ _ => true) (SampleWeight.fn (fun _ _ => 1)) false).2.2
      (by decide) (by decide)
